import Mathlib

/-!
Shallow embedding of the GitHub Codebase Chatbot (src/main.py), a single-page
Streamlit application, together with proofs about the claims of its
specification.  Strings are modelled as Lean strings; where character-level
reasoning is needed the core is defined on `List Char` and wrapped.  Network
calls are modelled by passing the outcome of each HTTP request (a successful
body or a raised exception) as an explicit argument; Streamlit session state
is an explicit `Session` record and each UI handler is a function from the
current session to the new session paired with the list of error and warning
messages it displays (`st.error` / `st.warning` calls).  Purely decorative
output (spinners, progress bars, success banners) is not modelled.
-/

/-- Python exceptions that the fetch helpers catch: `requests.exceptions.RequestException`
in the first `except` arm and any other `Exception` in the generic fallback arm. -/
inductive PyError where
  | requestException (msg : String)
  | otherError (msg : String)
deriving DecidableEq, Repr

/-- Truncation of a list of characters at the first occurrence of the substring
`.git`, matching the Python expression `x.split(".git")[0]` (the first element
of a split is the text before the leftmost occurrence of the separator). -/
def split_dot_git : List Char → List Char
  | '.' :: 'g' :: 'i' :: 't' :: _ => []
  | c :: cs => c :: split_dot_git cs
  | [] => []

/-- Literal characters of the URL head required by the regular expression
pattern of `parse_github_url`. -/
def gh_head : List Char := "https://github.com/".toList

/-- Character-level translation of `parse_github_url` (src/main.py lines 15-20).
The Python code applies `re.match` with pattern
`https://github\.com/([^/]+)/([^/]+)`: the input must begin with the literal
head, then a nonempty run of characters other than `/` (group 1), a `/`, and a
nonempty run of characters other than `/` (group 2); anything after group 2 is
ignored.  On a match it returns group 1 and `group2.split(".git")[0]`; on no
match it returns the no-match result, modelled as `none`. -/
def parse_github_url_chars (url : List Char) : Option (List Char × List Char) :=
  if url.take gh_head.length = gh_head then
    let rest := url.drop gh_head.length
    let owner := rest.takeWhile (fun c => decide (c ≠ '/'))
    match rest.drop owner.length with
    | '/' :: rest2 =>
      let name := rest2.takeWhile (fun c => decide (c ≠ '/'))
      if owner = [] ∨ name = [] then none
      else some (owner, split_dot_git name)
    | _ => none
  else none

/-- String-level wrapper of `parse_github_url`; `none` stands for the Python
return value `(None, None)`. -/
def parse_github_url (url : String) : Option (String × String) :=
  match parse_github_url_chars url.toList with
  | some (o, n) => some (o.asString, n.asString)
  | none => none

/-- Python `lstrip(".")`: removal of every leading `.` character. -/
def lstrip_dot (l : List Char) : List Char :=
  l.dropWhile (fun c => decide (c = '.'))

/-- Extension part (including the leading dot) returned by
`os.path.splitext(p)[-1]` for POSIX paths: the suffix of `p` from its last `.`,
provided that dot lies after the last `/` and the final path component has at
least one character other than `.` before that dot; otherwise the empty
extension. -/
def splitext_ext (p : List Char) : List Char :=
  let base := (p.reverse.takeWhile (fun c => decide (c ≠ '/'))).reverse
  let afterDotRev := base.reverse.takeWhile (fun c => decide (c ≠ '.'))
  if '.' ∈ base then
    let preDot := base.take (base.length - (afterDotRev.length + 1))
    if preDot.any (fun c => decide (c ≠ '.')) then '.' :: afterDotRev.reverse else []
  else []

/-- Character-level translation of `get_file_extension` (src/main.py lines
65-69): the query string is stripped (`split("?")[0]`), then
`os.path.splitext(...)[-1].lstrip(".")` is taken.  The `except` arm returning
`"plaintext"` is unreachable for string inputs, because none of these string
operations raises, so it has no counterpart in the embedding. -/
def get_file_extension_chars (x : List Char) : List Char :=
  lstrip_dot (splitext_ext (x.takeWhile (fun c => decide (c ≠ '?'))))

/-- String-level wrapper of `get_file_extension`. -/
def get_file_extension (filename_or_url : String) : String :=
  (get_file_extension_chars filename_or_url.toList).asString

/-- Displayed text of the two `except` arms shared by the fetch helpers:
`"Error fetching <context>: <e>"` for a `RequestException` and
`"Unexpected error fetching <context>: <e>"` for the generic fallback. -/
def error_message (context : String) (e : PyError) : String :=
  match e with
  | .requestException msg => "Error fetching " ++ context ++ ": " ++ msg
  | .otherError msg => "Unexpected error fetching " ++ context ++ ": " ++ msg

/-- Parsed JSON body of the repository metadata endpoint; the
`default_branch` field may be absent. -/
structure RepoBody where
  default_branch : Option String
deriving DecidableEq, Repr

/-- One entry of the `tree` array of the tree-listing endpoint.  The Python
code reads `item["path"]` and `item["type"]`; `type` is a Lean keyword, so the
second field is named `typ`. -/
structure TreeItem where
  path : String
  typ : String
deriving DecidableEq, Repr

/-- Parsed JSON body of the tree-listing endpoint; the `tree` field may be
absent, in which case the code substitutes `[]` via `.get("tree", [])`. -/
structure TreeBody where
  tree : Option (List TreeItem)
deriving DecidableEq, Repr

/-- Translation of `get_repo_default_branch` (src/main.py lines 22-34).  The
argument is the outcome of the HTTP request: a parsed body on success or the
exception raised by the transport, by `raise_for_status` on a non-2xx status,
or by JSON parsing.  Returns the branch (defaulting to `"main"` when the field
is absent) paired with the displayed error messages. -/
def get_repo_default_branch (resp : Except PyError RepoBody) : Option String × List String :=
  match resp with
  | .ok body => (some (body.default_branch.getD "main"), [])
  | .error e => (none, [error_message "branch" e])

/-- Translation of `get_repo_files` (src/main.py lines 37-50): on success the
`tree` array (or `[]` when absent) filtered to entries whose `type` is
`"blob"`, in response order; `none` plus a displayed error on any exception. -/
def get_repo_files (resp : Except PyError TreeBody) : Option (List TreeItem) × List String :=
  match resp with
  | .ok body => (some ((body.tree.getD []).filter (fun item => item.typ == "blob")), [])
  | .error e => (none, [error_message "files" e])

/-- Translation of `fetch_github_code` (src/main.py lines 52-62): the response
text on success, `none` plus a displayed error on any exception. -/
def fetch_github_code (resp : Except PyError String) : Option String × List String :=
  match resp with
  | .ok text => (some text, [])
  | .error e => (none, [error_message "file content" e])

deriving instance DecidableEq for Except

/-- One chat transcript entry, `{"role": ..., "content": ...}`. -/
structure ChatMessage where
  role : String
  content : String
deriving DecidableEq, Repr

/-- Streamlit session state of the application: exactly the keys initialized
from `default_values` (src/main.py lines 73-86). -/
structure Session where
  repo_owner : Option String
  repo_name : Option String
  repo_files : List TreeItem
  selected_file_path : Option String
  default_branch : Option String
  code_content : Option String
  current_file_url_display : Option String
  repo_code_full : Option String
  messages : List ChatMessage
deriving DecidableEq, Repr

/-- Session state at process start, from `default_values`. -/
def initial_session : Session :=
  { repo_owner := none, repo_name := none, repo_files := [], selected_file_path := none,
    default_branch := none, code_content := none, current_file_url_display := none,
    repo_code_full := none, messages := [] }

/-- Rendering of an optional string inside a Python f-string: `None` renders
as the text `None`. -/
def py_str_opt : Option String → String
  | none => "None"
  | some s => s

/-- Python truthiness of an optional string: `None` and the empty string are
falsy. -/
def truthy_opt (o : Option String) : Bool :=
  match o with
  | none => false
  | some s => decide (s ≠ "")

/-- Python `path.replace(" ", "%20")`: every space replaced. -/
def replace_spaces : List Char → List Char
  | [] => []
  | c :: cs => if c = ' ' then '%' :: '2' :: '0' :: replace_spaces cs else c :: replace_spaces cs

/-- String-level wrapper of `replace_spaces`. -/
def encode_path (path : String) : String :=
  (replace_spaces path.toList).asString

/-- Raw-content URL built by the handlers (src/main.py lines 154 and 189). -/
def raw_content_url (owner repo branch path : String) : String :=
  "https://raw.githubusercontent.com/" ++ owner ++ "/" ++ repo ++ "/" ++ branch ++ "/" ++
    encode_path path

/-- Placeholder block appended for a file whose fetch failed or returned falsy
content (src/main.py line 161). -/
def error_block (path : String) : String :=
  "\n\n--- FILE: " ++ path ++ " --- (Error fetching content)"

/-- Annotated block appended for a file whose fetch succeeded with truthy
content (src/main.py line 159). -/
def ok_block (path content : String) : String :=
  "\n\n--- FILE: " ++ path ++ " ---\n```" ++ get_file_extension path ++ "\n" ++ content ++ "\n```"

/-- Body of one iteration of the bulk-load loop (src/main.py lines 150-162):
fetch the raw content of one tree entry and render its block, together with
the error messages displayed by `fetch_github_code`.  The `if code:` test is
Python truthiness, so an empty body renders the error placeholder. -/
def render_file_block (owner repo branch : String) (fetch : String → Except PyError String)
    (f : TreeItem) : String × List String :=
  let fetched := fetch_github_code (fetch (raw_content_url owner repo branch f.path))
  match fetched.1 with
  | some code => if code = "" then (error_block f.path, fetched.2) else (ok_block f.path code, fetched.2)
  | none => (error_block f.path, fetched.2)

/-- Python `"".join`, plain concatenation. -/
def str_join : List String → String
  | [] => ""
  | x :: xs => x ++ str_join xs

/-- Blocks assembled by the bulk-load loop, in file-list order. -/
def assembled_parts (fetch : String → Except PyError String) (s : Session) : List String :=
  (s.repo_files.map (render_file_block (py_str_opt s.repo_owner) (py_str_opt s.repo_name)
    (py_str_opt s.default_branch) fetch)).map Prod.fst

/-- Handler of the `Load Repository Contents` button (src/main.py lines
105-134).  `branchResp` and `treeResp` are the outcomes of the two HTTP
requests.  Note that `repo_owner` and `repo_name` are assigned before the
branch request and `default_branch` before the tree request, so they stay
assigned when a later request fails. -/
def load_repo_handler (repo_url_input : String) (branchResp : Except PyError RepoBody)
    (treeResp : Except PyError TreeBody) (s : Session) : Session × List String :=
  if repo_url_input = "" then (s, ["Please enter a GitHub repository URL."])
  else
    match parse_github_url repo_url_input with
    | some (owner, repo) =>
      if owner ≠ "" ∧ repo ≠ "" then
        let s1 := { s with repo_owner := some owner, repo_name := some repo }
        let branchOut := get_repo_default_branch branchResp
        match branchOut.1 with
        | some branch =>
          if branch = "" then
            (s1, branchOut.2 ++ ["Could not determine the default branch. Check repository URL or PAT."])
          else
            let s2 := { s1 with default_branch := some branch }
            let filesOut := get_repo_files treeResp
            match filesOut.1 with
            | some files =>
              ({ s2 with repo_files := files,
                         selected_file_path := none,
                         code_content := none,
                         repo_code_full := none,
                         messages := [] },
               branchOut.2 ++ filesOut.2)
            | none =>
              (s2, branchOut.2 ++ filesOut.2 ++ ["Could not retrieve files. Check repository permissions or URL."])
        | none =>
          (s1, branchOut.2 ++ ["Could not determine the default branch. Check repository URL or PAT."])
      else (s, ["Invalid GitHub repository URL format."])
    | none => (s, ["Invalid GitHub repository URL format."])

/-- Handler of the `Load Full Repository Code` button (src/main.py lines
140-169): every file of the list is fetched in order, blocks are concatenated
into `repo_code_full`, the single-file context is unset and the transcript is
cleared. -/
def load_full_repo_handler (fetch : String → Except PyError String) (s : Session) :
    Session × List String :=
  if s.repo_files.isEmpty then (s, ["No files loaded from repository yet."])
  else
    let parts := s.repo_files.map (render_file_block (py_str_opt s.repo_owner)
      (py_str_opt s.repo_name) (py_str_opt s.default_branch) fetch)
    ({ s with repo_code_full := some (str_join (parts.map Prod.fst)),
              code_content := none,
              selected_file_path := none,
              messages := [] },
     (parts.map Prod.snd).flatten)

/-- Placeholder entry of the single-file select box. -/
def placeholder_option : String := "-- Select a single file --"

/-- Handler of the single-file select box (src/main.py lines 174-202).  When a
new file is chosen, the full-repository context is unset, the transcript is
cleared and the file is fetched; falsy content (a failed fetch or an empty
body) reports a failure and resets the selection.  Choosing the placeholder
while a file is selected deselects it. -/
def select_single_file_handler (fetch : String → Except PyError String) (selected_file : String)
    (s : Session) : Session × List String :=
  if selected_file ≠ placeholder_option then
    if s.selected_file_path ≠ some selected_file then
      let owner := py_str_opt s.repo_owner
      let repo := py_str_opt s.repo_name
      let branch := py_str_opt s.default_branch
      let s1 := { s with selected_file_path := some selected_file,
                         repo_code_full := none,
                         code_content := none,
                         messages := [],
                         current_file_url_display := some ("https://github.com/" ++ owner ++ "/"
                           ++ repo ++ "/blob/" ++ branch ++ "/" ++ encode_path selected_file) }
      let fetched := fetch_github_code (fetch (raw_content_url owner repo branch selected_file))
      match fetched.1 with
      | some code =>
        if code = "" then
          ({ s1 with selected_file_path := none },
           fetched.2 ++ ["Failed to load content for " ++ selected_file ++ "."])
        else ({ s1 with code_content := some code }, fetched.2)
      | none =>
        ({ s1 with selected_file_path := none },
         fetched.2 ++ ["Failed to load content for " ++ selected_file ++ "."])
    else (s, [])
  else
    if truthy_opt s.selected_file_path then
      ({ s with selected_file_path := none, code_content := none }, [])
    else (s, [])

/-- Outcome of the streaming generation call: the list of text fragments of
the chunks that carry parts, or the exception raised during request
construction or streaming. -/
inductive GenResult where
  | success (chunks : List String)
  | failure (e : String)

/-- Final assistant text committed to the transcript (src/main.py lines
287-297): the concatenation of the streamed fragments, or, when an exception
was caught, the error text that replaces the partial buffer. -/
def gen_output : GenResult → String
  | .success chunks => str_join chunks
  | .failure e => "Sorry, I encountered an error during generation: " ++ e

/-- Error message displayed by the `except` arm of the chat handler. -/
def gen_errors : GenResult → List String
  | .success _ => []
  | .failure e => ["An error occurred with the Gemini API: " ++ e]

/-- Readiness condition of the chat input (src/main.py lines 220-228): the
generation API key is configured, a repository was loaded, and one of the two
contexts is populated. -/
def chat_ready (api_key_present : Bool) (s : Session) : Bool :=
  api_key_present && truthy_opt s.repo_owner &&
    (truthy_opt s.code_content || truthy_opt s.repo_code_full)

/-- Handler of one chat turn (src/main.py lines 244-299): the user message is
appended, then the assistant message holding either the streamed answer or
the caught error text. -/
def chat_turn_handler (prompt : String) (gen : GenResult) (s : Session) : Session × List String :=
  ({ s with messages := s.messages ++ [⟨"user", prompt⟩, ⟨"assistant", gen_output gen⟩] },
   gen_errors gen)

/-- One user-initiated action on the page, carrying the outcomes of the
network requests it performs. -/
inductive AppAction where
  | loadRepo (repo_url_input : String) (branchResp : Except PyError RepoBody)
      (treeResp : Except PyError TreeBody)
  | loadFullRepo (fetch : String → Except PyError String)
  | selectFile (fetch : String → Except PyError String) (selected_file : String)
  | chatTurn (api_key_present : Bool) (prompt : Option String) (gen : GenResult)
  | clearAll

/-- One script run triggered by an action, with the guards under which each
widget is rendered: the analyze-code section only exists when `repo_files` is
truthy (src/main.py line 136), the chat input only when `chat_ready` holds and
a prompt was submitted, and `Clear All` restores every key to its default. -/
def step (a : AppAction) (s : Session) : Session × List String :=
  match a with
  | .loadRepo url br tr => load_repo_handler url br tr s
  | .loadFullRepo fetch =>
    if s.repo_files.isEmpty then (s, []) else load_full_repo_handler fetch s
  | .selectFile fetch sel =>
    if s.repo_files.isEmpty then (s, []) else select_single_file_handler fetch sel s
  | .chatTurn key prompt gen =>
    if chat_ready key s then
      match prompt with
      | some p => if p = "" then (s, []) else chat_turn_handler p gen s
      | none => (s, [])
    else (s, [])
  | .clearAll => (initial_session, [])

/-- Sessions reachable from process start through user actions. -/
inductive Reachable : Session → Prop where
  | init : Reachable initial_session
  | do_step (a : AppAction) (s : Session) : Reachable s → Reachable (step a s).1

/-- Mutual-exclusion property of the two context slots. -/
def context_exclusive (s : Session) : Prop :=
  s.code_content = none ∨ s.repo_code_full = none

/-- Sample session with a loaded repository (three blob entries), used to
instantiate theorems at concrete inputs. -/
def repo_session : Session :=
  { initial_session with repo_owner := some "o",
                         repo_name := some "r",
                         default_branch := some "main",
                         repo_files := [⟨"a.py", "blob"⟩, ⟨"b.txt", "blob"⟩, ⟨"c.md", "blob"⟩] }

/-- Sample session ready for chat: a repository is loaded and a single file is
selected with nonempty content. -/
def ready_session : Session :=
  { initial_session with repo_owner := some "o",
                         repo_name := some "r",
                         default_branch := some "main",
                         repo_files := [⟨"a.py", "blob"⟩],
                         selected_file_path := some "a.py",
                         code_content := some "x = 1" }

/-- Sample blob-fetch outcome map: the request for `b.txt` raises a transport
error, every other request succeeds with nonempty content. -/
def sample_fetch : String → Except PyError String := fun url =>
  if url = raw_content_url "o" "r" "main" "b.txt" then .error (.requestException "boom")
  else .ok "content"

/-- Sample blob-fetch outcome map whose requests all succeed with an empty
body. -/
def empty_fetch : String → Except PyError String := fun _ => .ok ""

/-! ### Helper lemmas -/

/-- Computation of `takeWhile` over an append whose left part satisfies the
predicate everywhere. -/
theorem takeWhile_append_of_all {α : Type} (p : α → Bool) (l1 l2 : List α)
    (h : ∀ a ∈ l1, p a = true) : (l1 ++ l2).takeWhile p = l1 ++ l2.takeWhile p := by
  induction l1 with
  | nil => simp
  | cons x xs ih =>
    have hx : p x = true := h x (List.mem_cons_self x xs)
    rw [List.cons_append, List.takeWhile_cons, if_pos hx, List.cons_append,
      ih (fun a ha => h a (List.mem_cons_of_mem x ha))]

/-- Identity of `takeWhile` on a list satisfying the predicate everywhere. -/
theorem takeWhile_eq_self_of_all {α : Type} (p : α → Bool) (l : List α)
    (h : ∀ a ∈ l, p a = true) : l.takeWhile p = l := by
  have := takeWhile_append_of_all p l [] h
  simpa using this

/-- Dropping the length of the `takeWhile` part is `dropWhile`. -/
theorem drop_length_takeWhile {α : Type} (p : α → Bool) : ∀ l : List α,
    l.drop (l.takeWhile p).length = l.dropWhile p
  | [] => rfl
  | x :: xs => by
    by_cases hx : p x = true
    · rw [List.takeWhile_cons, if_pos hx, List.dropWhile_cons, if_pos hx, List.length_cons,
        List.drop_succ_cons, drop_length_takeWhile p xs]
    · rw [List.takeWhile_cons, if_neg hx, List.dropWhile_cons, if_neg hx, List.length_nil,
        List.drop_zero]

/-- Shape of a `dropWhile` result: empty, or headed by a character that
fails the predicate. -/
theorem dropWhile_nil_or_head_false {α : Type} (p : α → Bool) : ∀ l : List α,
    l.dropWhile p = [] ∨ ∃ y ys, l.dropWhile p = y :: ys ∧ p y = false
  | [] => Or.inl rfl
  | x :: xs => by
    by_cases hx : p x = true
    · rw [List.dropWhile_cons, if_pos hx]
      exact dropWhile_nil_or_head_false p xs
    · rw [List.dropWhile_cons, if_neg hx]
      exact Or.inr ⟨x, xs, rfl, by revert hx; cases p x <;> simp⟩

/-- Membership in a `takeWhile` result implies membership in the list. -/
theorem mem_of_mem_takeWhile {α : Type} (p : α → Bool) : ∀ (l : List α) (a : α),
    a ∈ l.takeWhile p → a ∈ l
  | [], a, h => by simp at h
  | x :: xs, a, h => by
    by_cases hx : p x = true
    · rw [List.takeWhile_cons, if_pos hx] at h
      rcases List.mem_cons.mp h with h | h
      · exact h ▸ List.mem_cons_self x xs
      · exact List.mem_cons_of_mem x (mem_of_mem_takeWhile p xs a h)
    · rw [List.takeWhile_cons, if_neg hx] at h
      simp at h

/-- Nonemptiness of a string append with nonempty left part. -/
theorem append_ne_empty_left (s t : String) (h : s ≠ "") : s ++ t ≠ "" := by
  intro he
  apply h
  have hd : s.data ++ t.data = [] := by
    have := congrArg String.data he
    rwa [String.data_append] at this
  cases s
  simp_all

/-- Nonemptiness of a string append with nonempty right part. -/
theorem append_ne_empty_right (s t : String) (h : t ≠ "") : s ++ t ≠ "" := by
  intro he
  apply h
  have hd : s.data ++ t.data = [] := by
    have := congrArg String.data he
    rwa [String.data_append] at this
  cases t
  simp_all

/-- Nonemptiness of a concatenation containing a nonempty element. -/
theorem str_join_ne_empty : ∀ (l : List String) (c : String), c ∈ l → c ≠ "" → str_join l ≠ ""
  | x :: xs, c, hc, hne => by
    rcases List.mem_cons.mp hc with h | h
    · exact append_ne_empty_left x (str_join xs) (h ▸ hne)
    · exact append_ne_empty_right x (str_join xs) (str_join_ne_empty xs c h hne)

/-! ### Claims -/

/-- Claim C1, counterexample.  The Python code truncates the second URL
segment at the FIRST occurrence of the substring `.git` anywhere
(`split(".git")[0]`), not at a trailing `.git` suffix: for the repository
name `my.github.repo` (which has no trailing `.git` suffix) the parser
returns `my`, and for `.gitignore` it returns the empty string. -/
theorem c1_counterexample :
    parse_github_url "https://github.com/acme/my.github.repo" = some ("acme", "my") ∧
    parse_github_url "https://github.com/acme/my.github.repo" ≠ some ("acme", "my.github.repo") ∧
    parse_github_url "https://github.com/o/.gitignore" = some ("o", "") ∧
    parse_github_url "https://github.com/o/.gitignore" ≠ some ("o", ".gitignore") := by
  decide

/-- Claim C1 (amended): for every string of the shape
`https://github.com/<owner>/<name><rest>` with `owner` and `name` nonempty and
slash-free and `rest` empty or starting with `/`, the parser returns exactly
`(owner, name)` with the name truncated at the FIRST occurrence of the
substring `.git` (not merely a trailing `.git` suffix stripped); and every
string on which the parser does not return the no-match result is of that
shape, with precisely that output. -/
theorem c1_amended_url_parse :
    (∀ owner name rest : List Char,
      owner ≠ [] → name ≠ [] →
      (∀ c ∈ owner, c ≠ '/') → (∀ c ∈ name, c ≠ '/') →
      (rest = [] ∨ ∃ r, rest = '/' :: r) →
      parse_github_url_chars (gh_head ++ (owner ++ '/' :: (name ++ rest))) =
        some (owner, split_dot_git name)) ∧
    (∀ url o n, parse_github_url_chars url = some (o, n) →
      ∃ owner name rest, url = gh_head ++ (owner ++ '/' :: (name ++ rest)) ∧
        owner ≠ [] ∧ name ≠ [] ∧
        (∀ c ∈ owner, c ≠ '/') ∧ (∀ c ∈ name, c ≠ '/') ∧
        (rest = [] ∨ ∃ r, rest = '/' :: r) ∧
        o = owner ∧ n = split_dot_git name) := by
  constructor
  · intro owner name rest ho hn hco hcn hr
    have howner : ∀ c ∈ owner, (fun c => decide (c ≠ '/')) c = true :=
      fun c hc => decide_eq_true (hco c hc)
    have h1 : (gh_head ++ (owner ++ '/' :: (name ++ rest))).take gh_head.length = gh_head :=
      List.take_left gh_head _
    have h2 : (gh_head ++ (owner ++ '/' :: (name ++ rest))).drop gh_head.length =
        owner ++ '/' :: (name ++ rest) := List.drop_left gh_head _
    have h3 : (owner ++ '/' :: (name ++ rest)).takeWhile (fun c => decide (c ≠ '/')) = owner := by
      rw [takeWhile_append_of_all _ _ _ howner, List.takeWhile_cons]
      simp
    have h4 : (owner ++ '/' :: (name ++ rest)).drop owner.length = '/' :: (name ++ rest) :=
      List.drop_left owner _
    have h5 : (name ++ rest).takeWhile (fun c => decide (c ≠ '/')) = name := by
      have hname : ∀ c ∈ name, (fun c => decide (c ≠ '/')) c = true :=
        fun c hc => decide_eq_true (hcn c hc)
      rcases hr with h | ⟨r, h⟩
      · subst h
        simpa using takeWhile_eq_self_of_all _ name hname
      · subst h
        rw [takeWhile_append_of_all _ _ _ hname, List.takeWhile_cons]
        simp
    rw [parse_github_url_chars, if_pos h1]
    simp only [h2, h3, h4, h5]
    simp [ho, hn]
  · intro url o n h
    simp only [parse_github_url_chars] at h
    by_cases htake : url.take gh_head.length = gh_head
    · rw [if_pos htake] at h
      have hurl : url = gh_head ++ url.drop gh_head.length := by
        conv_lhs => rw [← List.take_append_drop gh_head.length url]
        rw [htake]
      split at h
      · rename_i rest2 heq
        rw [drop_length_takeWhile] at heq
        have hrest0eq : url.drop gh_head.length =
            (url.drop gh_head.length).takeWhile (fun c => decide (c ≠ '/')) ++ '/' :: rest2 := by
          conv_lhs =>
            rw [← List.takeWhile_append_dropWhile (fun c => decide (c ≠ '/'))
              (url.drop gh_head.length)]
          rw [heq]
        have hrest2eq : rest2 =
            rest2.takeWhile (fun c => decide (c ≠ '/')) ++
              rest2.dropWhile (fun c => decide (c ≠ '/')) :=
          (List.takeWhile_append_dropWhile _ _).symm
        split at h
        · simp at h
        · rename_i hguard
          push_neg at hguard
          have hpair := Option.some.inj h
          refine ⟨(url.drop gh_head.length).takeWhile (fun c => decide (c ≠ '/')),
            rest2.takeWhile (fun c => decide (c ≠ '/')),
            rest2.dropWhile (fun c => decide (c ≠ '/')), ?_, hguard.1, hguard.2, ?_, ?_, ?_, ?_, ?_⟩
          · exact hurl.trans ((congrArg (gh_head ++ ·) hrest0eq).trans
              (congrArg (fun l => gh_head ++
                ((url.drop gh_head.length).takeWhile (fun c => decide (c ≠ '/')) ++ '/' :: l))
                hrest2eq))
          · intro ch hc
            have hmem := List.mem_takeWhile_imp hc
            simpa using hmem
          · intro ch hc
            have hmem := List.mem_takeWhile_imp hc
            simpa using hmem
          · rcases dropWhile_nil_or_head_false (fun c => decide (c ≠ '/')) rest2 with
              hnil | ⟨y, ys, hys, hy⟩
            · exact Or.inl hnil
            · have hy' : y = '/' := by revert hy; simp
              exact Or.inr ⟨ys, by rw [hys, hy']⟩
          · exact (Prod.mk.injEq .. ▸ hpair).1.symm
          · exact (Prod.mk.injEq .. ▸ hpair).2.symm
      · simp at h
    · rw [if_neg htake] at h
      simp at h

/-- Claim C1 witness: instantiation of the amended theorem at a concrete URL
with a trailing `.git` suffix. -/
theorem c1_amended_url_parse_witness :
    parse_github_url_chars (gh_head ++ ("acme".toList ++ '/' :: ("widgets.git".toList ++ []))) =
      some ("acme".toList, split_dot_git "widgets.git".toList) :=
  c1_amended_url_parse.1 "acme".toList "widgets.git".toList [] (by decide) (by decide)
    (by decide) (by decide) (Or.inl rfl)

/-- Claim C2, counterexample: for an input with no extension the function
returns the empty string, not the claimed `"plaintext"` fallback; the
`except` arm that returns `"plaintext"` never fires on a string input
because none of the involved string operations raises. -/
theorem c2_counterexample :
    get_file_extension "README" = "" ∧ get_file_extension "README" ≠ "plaintext" := by
  decide

/-- Claim C2 (amended): `get_file_extension` returns the substring after the
last `.` of the query-stripped input whenever the final path component
carries an extension (in particular `"src/app.py"` yields `"py"`), and
returns the EMPTY string, not `"plaintext"`, when the input contains no `.`
at all (in particular on `"README"`); the `"plaintext"` fallback belongs to
an exception branch that string inputs never reach. -/
theorem c2_amended_file_extension :
    get_file_extension "src/app.py" = "py" ∧
    get_file_extension "README" = "" ∧
    (∀ x : List Char, '.' ∉ x → get_file_extension_chars x = []) ∧
    (∀ stem ext : List Char, ext ≠ [] →
      (∀ c ∈ ext, c ≠ '.' ∧ c ≠ '/' ∧ c ≠ '?') →
      (∀ c ∈ stem, c ≠ '?') →
      (∃ c ∈ stem.reverse.takeWhile (fun a => decide (a ≠ '/')), c ≠ '.') →
      get_file_extension_chars (stem ++ '.' :: ext) = ext) := by
  refine ⟨by decide, by decide, ?_, ?_⟩
  · intro x hx
    have hbase : '.' ∉ ((x.takeWhile (fun c => decide (c ≠ '?'))).reverse.takeWhile
        (fun c => decide (c ≠ '/'))).reverse := by
      intro hmem
      exact hx (mem_of_mem_takeWhile _ _ _ (List.mem_reverse.mp
        (mem_of_mem_takeWhile _ _ _ (List.mem_reverse.mp hmem))))
    simp only [get_file_extension_chars, splitext_ext]
    rw [if_neg hbase]
    rfl
  · intro stem ext hne hprops hq hbase
    have hq_all : ∀ c ∈ stem ++ '.' :: ext, (fun c => decide (c ≠ '?')) c = true := by
      intro c hc
      rcases List.mem_append.mp hc with h | h
      · exact decide_eq_true (hq c h)
      · rcases List.mem_cons.mp h with h | h
        · subst h; decide
        · exact decide_eq_true ((hprops c h).2.2)
    have hA : (stem ++ '.' :: ext).takeWhile (fun c => decide (c ≠ '?')) = stem ++ '.' :: ext :=
      takeWhile_eq_self_of_all _ _ hq_all
    have hrev : (stem ++ '.' :: ext).reverse = ext.reverse ++ '.' :: stem.reverse := by
      simp
    have hext_slash : ∀ c ∈ ext.reverse, (fun c => decide (c ≠ '/')) c = true := by
      intro c hc
      exact decide_eq_true ((hprops c (List.mem_reverse.mp hc)).2.1)
    have hbase_eq : ((stem ++ '.' :: ext).reverse.takeWhile (fun c => decide (c ≠ '/'))).reverse
        = (stem.reverse.takeWhile (fun c => decide (c ≠ '/'))).reverse ++ '.' :: ext := by
      rw [hrev, takeWhile_append_of_all _ _ _ hext_slash, List.takeWhile_cons, if_pos (by decide)]
      simp
    have hext_dot : ∀ c ∈ ext.reverse, (fun c => decide (c ≠ '.')) c = true := by
      intro c hc
      exact decide_eq_true ((hprops c (List.mem_reverse.mp hc)).1)
    have hADR : (((stem.reverse.takeWhile (fun c => decide (c ≠ '/'))).reverse ++
        '.' :: ext).reverse.takeWhile (fun c => decide (c ≠ '.'))) = ext.reverse := by
      rw [List.reverse_append, List.reverse_cons, List.reverse_reverse, List.append_assoc,
        List.singleton_append, takeWhile_append_of_all _ _ _ hext_dot, List.takeWhile_cons,
        if_neg (by decide)]
      simp
    have hdotmem : '.' ∈ (stem.reverse.takeWhile (fun c => decide (c ≠ '/'))).reverse ++
        '.' :: ext := by
      simp
    have hlen : ((stem.reverse.takeWhile (fun c => decide (c ≠ '/'))).reverse ++
        '.' :: ext).length - (ext.reverse.length + 1) =
        (stem.reverse.takeWhile (fun c => decide (c ≠ '/'))).reverse.length := by
      simp only [List.length_append, List.length_cons, List.length_reverse]
      omega
    have htk : (((stem.reverse.takeWhile (fun c => decide (c ≠ '/'))).reverse ++
        '.' :: ext).take
          (((stem.reverse.takeWhile (fun c => decide (c ≠ '/'))).reverse ++
            '.' :: ext).length - (ext.reverse.length + 1))) =
        (stem.reverse.takeWhile (fun c => decide (c ≠ '/'))).reverse := by
      rw [hlen]
      exact List.take_left _ _
    have hany' : ((stem.reverse.takeWhile (fun c => decide (c ≠ '/'))).reverse).any
        (fun c => decide (c ≠ '.')) = true := by
      obtain ⟨c, hcmem, hcne⟩ := hbase
      exact List.any_eq_true.mpr ⟨c, List.mem_reverse.mpr hcmem, decide_eq_true hcne⟩
    simp only [get_file_extension_chars, hA, splitext_ext]
    rw [hbase_eq, hADR, if_pos hdotmem, htk, if_pos hany']
    rcases ext with _ | ⟨e, es⟩
    · exact absurd rfl hne
    · have he : e ≠ '.' := (hprops e (List.mem_cons_self e es)).1
      simp [lstrip_dot, List.dropWhile_cons, he]

/-- Claim C2 witness: instantiation of the amended theorem at `src/app.py`
(general part) and at `README` (no-dot part). -/
theorem c2_witness :
    get_file_extension_chars ("src/app".toList ++ '.' :: "py".toList) = "py".toList ∧
    get_file_extension_chars "README".toList = [] :=
  ⟨c2_amended_file_extension.2.2.2 "src/app".toList "py".toList (by decide) (by decide)
      (by decide) (by decide),
   c2_amended_file_extension.2.2.1 "README".toList (by decide)⟩

/-- Claim C3: on a successful tree-listing response, `get_repo_files` returns
exactly the entries whose type equals `"blob"`, in response order (the result
is a sublist of the response whose members are precisely the blob entries);
on any transport or parse error it returns the failed result `none` instead
of raising. -/
theorem c3_tree_filter :
    (∀ body : TreeBody, ∃ l, (get_repo_files (.ok body)).1 = some l ∧
      l.Sublist (body.tree.getD []) ∧
      (∀ item : TreeItem, item ∈ l ↔ item ∈ body.tree.getD [] ∧ item.typ = "blob")) ∧
    (∀ e : PyError, (get_repo_files (.error e)).1 = none) := by
  constructor
  · intro body
    refine ⟨_, rfl, List.filter_sublist _, ?_⟩
    intro item
    simp [List.mem_filter]
  · intro e
    rfl

/-- Claim C4: a successful metadata response whose body lacks the
`default_branch` field yields the fallback `"main"`; every raised exception
yields the failed result `none` together with a visible error message, and
the embedding of the function is total, so nothing propagates to the
caller. -/
theorem c4_default_branch :
    (∀ body : RepoBody, body.default_branch = none →
      (get_repo_default_branch (.ok body)).1 = some "main") ∧
    (∀ e : PyError, (get_repo_default_branch (.error e)).1 = none ∧
      (get_repo_default_branch (.error e)).2 ≠ []) := by
  constructor
  · intro body h
    simp [get_repo_default_branch, h]
  · intro e
    exact ⟨rfl, by simp [get_repo_default_branch]⟩

/-- Claim C4 witness: instantiation at a body without `default_branch` and at
a concrete timeout exception. -/
theorem c4_default_branch_witness :
    (get_repo_default_branch (.ok ⟨none⟩)).1 = some "main" ∧
    ((get_repo_default_branch (.error (.requestException "timeout"))).1 = none ∧
     (get_repo_default_branch (.error (.requestException "timeout"))).2 ≠ []) :=
  ⟨c4_default_branch.1 ⟨none⟩ rfl, c4_default_branch.2 (.requestException "timeout")⟩

/-- Claim C3 witness: instantiation of the error part at a concrete parse
error. -/
theorem c3_tree_filter_witness :
    (get_repo_files (.error (.otherError "bad json"))).1 = none :=
  c3_tree_filter.2 (.otherError "bad json")

/-- Preservation of the context mutual-exclusion invariant by every action:
each handler either leaves both context slots untouched or writes `none` into
at least one of them. -/
theorem step_preserves_context_exclusive (a : AppAction) (s : Session)
    (h : context_exclusive s) : context_exclusive (step a s).1 := by
  cases a with
  | loadRepo url br tr =>
    simp only [step, load_repo_handler]
    repeat' split
    all_goals first | exact Or.inl rfl | exact Or.inr rfl | exact h
  | loadFullRepo fetch =>
    simp only [step, load_full_repo_handler]
    repeat' split
    all_goals first | exact Or.inl rfl | exact h
  | selectFile fetch sel =>
    simp only [step, select_single_file_handler]
    repeat' split
    all_goals first | exact Or.inl rfl | exact Or.inr rfl | exact h
  | chatTurn key prompt gen =>
    simp only [step, chat_turn_handler]
    repeat' split
    all_goals exact h
  | clearAll =>
    exact Or.inl rfl

/-- Claim C5: in every reachable session at most one of the single-file
context (`code_content`) and the full-repository context (`repo_code_full`)
is populated; triggering the full-repository load clears the single-file
context and selection and empties the transcript, and selecting a new single
file clears the full-repository context and empties the transcript. -/
theorem c5_context_exclusion :
    (∀ s : Session, Reachable s → context_exclusive s) ∧
    (∀ (s : Session) (fetch : String → Except PyError String),
      s.repo_files.isEmpty = false →
      (step (.loadFullRepo fetch) s).1.code_content = none ∧
      (step (.loadFullRepo fetch) s).1.selected_file_path = none ∧
      (step (.loadFullRepo fetch) s).1.messages = []) ∧
    (∀ (s : Session) (fetch : String → Except PyError String) (sel : String),
      s.repo_files.isEmpty = false → sel ≠ placeholder_option →
      s.selected_file_path ≠ some sel →
      (step (.selectFile fetch sel) s).1.repo_code_full = none ∧
      (step (.selectFile fetch sel) s).1.messages = []) := by
  refine ⟨?_, ?_, ?_⟩
  · intro s hs
    induction hs with
    | init => exact Or.inl rfl
    | do_step a s hs ih => exact step_preserves_context_exclusive a s ih
  · intro s fetch hne
    have h2 : ¬ s.repo_files = [] := by simpa using hne
    simp [step, load_full_repo_handler, h2]
  · intro s fetch sel hne hsel hdiff
    have h1 : ¬ (s.repo_files.isEmpty = true) := by simp [hne]
    simp only [step, select_single_file_handler, if_neg h1, if_pos hsel, if_pos hdiff]
    repeat' split
    all_goals simp

/-- Claim C5 witness: instantiation of the invariant at the initial session
and of the two transition parts at a concrete loaded session. -/
theorem c5_context_exclusion_witness :
    context_exclusive initial_session ∧
    ((step (.loadFullRepo (fun _ => .ok "content")) repo_session).1.code_content = none ∧
     (step (.loadFullRepo (fun _ => .ok "content")) repo_session).1.selected_file_path = none ∧
     (step (.loadFullRepo (fun _ => .ok "content")) repo_session).1.messages = []) ∧
    ((step (.selectFile (fun _ => .ok "content") "a.py") repo_session).1.repo_code_full = none ∧
     (step (.selectFile (fun _ => .ok "content") "a.py") repo_session).1.messages = []) :=
  ⟨c5_context_exclusion.1 initial_session Reachable.init,
   c5_context_exclusion.2.1 repo_session (fun _ => .ok "content") (by decide),
   c5_context_exclusion.2.2 repo_session (fun _ => .ok "content") "a.py" (by decide) (by decide)
     (by decide)⟩

/-- Claim C6: when exactly one file of the list fails to fetch (a transport
error) and every other file succeeds with nonempty content, the bulk load
assembles one block per file, in list order: the failed index carries the
failure placeholder naming its path and every other index carries the
annotated code block, and the loop visits all files (the block list has the
same length as the file list, and the assembled context is their
concatenation). -/
theorem c6_bulk_fetch_tolerance :
    ∀ (s : Session) (fetch : String → Except PyError String) (j : Nat),
      j < s.repo_files.length →
      (∃ e, fetch (raw_content_url (py_str_opt s.repo_owner) (py_str_opt s.repo_name)
        (py_str_opt s.default_branch) ((s.repo_files.getD j ⟨"", ""⟩).path)) = .error e) →
      (∀ i, i < s.repo_files.length → i ≠ j →
        ∃ c, fetch (raw_content_url (py_str_opt s.repo_owner) (py_str_opt s.repo_name)
          (py_str_opt s.default_branch) ((s.repo_files.getD i ⟨"", ""⟩).path)) = .ok c ∧
          c ≠ "") →
      (load_full_repo_handler fetch s).1.repo_code_full =
          some (str_join (assembled_parts fetch s)) ∧
      (assembled_parts fetch s).length = s.repo_files.length ∧
      (∀ i, i < s.repo_files.length →
        (i = j → (assembled_parts fetch s).getD i "" =
          error_block ((s.repo_files.getD i ⟨"", ""⟩).path)) ∧
        (i ≠ j → ∃ c, fetch (raw_content_url (py_str_opt s.repo_owner) (py_str_opt s.repo_name)
            (py_str_opt s.default_branch) ((s.repo_files.getD i ⟨"", ""⟩).path)) = .ok c ∧
          c ≠ "" ∧
          (assembled_parts fetch s).getD i "" =
            ok_block ((s.repo_files.getD i ⟨"", ""⟩).path) c)) := by
  intro s fetch j hj hfail hok
  have hne : ¬ s.repo_files = [] := by
    intro h
    rw [h] at hj
    simp at hj
  refine ⟨?_, ?_, ?_⟩
  · have h2 : ¬ (s.repo_files.isEmpty = true) := by simpa using hne
    simp only [load_full_repo_handler, if_neg h2]
    rfl
  · simp [assembled_parts]
  · intro i hi
    have hgetD : s.repo_files.getD i ⟨"", ""⟩ = s.repo_files[i] :=
      List.getD_eq_getElem _ _ hi
    have hlen1 : i < (assembled_parts fetch s).length := by simpa [assembled_parts] using hi
    constructor
    · intro hij
      subst hij
      obtain ⟨e, he⟩ := hfail
      rw [hgetD] at he ⊢
      rw [List.getD_eq_getElem _ _ hlen1]
      simp only [assembled_parts, List.getElem_map]
      simp [render_file_block, fetch_github_code, he]
    · intro hij
      obtain ⟨c, hc, hcne⟩ := hok i hi hij
      refine ⟨c, hc, hcne, ?_⟩
      rw [hgetD] at hc ⊢
      rw [List.getD_eq_getElem _ _ hlen1]
      simp only [assembled_parts, List.getElem_map]
      simp [render_file_block, fetch_github_code, hc, hcne]

/-- Claim C6 witness: instantiation at a three-file repository whose second
file raises a transport error while the others return nonempty content. -/
theorem c6_bulk_fetch_tolerance_witness :
    (load_full_repo_handler sample_fetch repo_session).1.repo_code_full =
      some (str_join (assembled_parts sample_fetch repo_session)) ∧
    (assembled_parts sample_fetch repo_session).length = repo_session.repo_files.length ∧
    (assembled_parts sample_fetch repo_session).getD 1 "" =
      error_block ((repo_session.repo_files.getD 1 ⟨"", ""⟩).path) := by
  have h := c6_bulk_fetch_tolerance repo_session sample_fetch 1 (by decide)
    ⟨.requestException "boom", by decide⟩
    (by
      intro i hi hij
      have hi3 : i < 3 := by simpa [repo_session, initial_session] using hi
      interval_cases i
      · exact ⟨"content", by decide, by decide⟩
      · exact absurd rfl hij
      · exact ⟨"content", by decide, by decide⟩)
  exact ⟨h.1, h.2.1, (h.2.2 1 (by decide)).1 rfl⟩

/-- Claim C7, counterexample.  When branch resolution fails during
`Load Repository Contents`, the session is NOT left entirely unchanged:
`repo_owner` (and `repo_name`) were already assigned from the parsed URL
before the failing request (src/main.py lines 111-112). -/
theorem c7_counterexample :
    (step (.loadRepo "https://github.com/o/r" (.error (.requestException "net down"))
      (.ok ⟨some []⟩)) initial_session).1.repo_owner ≠ initial_session.repo_owner := by
  decide

/-- Claim C7 (amended): when a GitHub endpoint fails during
`Load Repository Contents`, a visible error message is reported and the
fields downstream of the failure are left unchanged (`repo_files`,
`messages`, `selected_file_path`, `code_content`, `repo_code_full`, and, for
a branch-resolution failure, also `default_branch`); however `repo_owner`
and `repo_name` are assigned from the parsed URL before any request, and on
a tree-listing failure `default_branch` has also already been assigned, so
those fields may differ from their values before the action. -/
theorem c7_amended_load_failure :
    (∀ (s : Session) (url owner repo : String) (e : PyError) (tr : Except PyError TreeBody),
      parse_github_url url = some (owner, repo) → owner ≠ "" → repo ≠ "" →
      (step (.loadRepo url (.error e) tr) s).1.repo_files = s.repo_files ∧
      (step (.loadRepo url (.error e) tr) s).1.messages = s.messages ∧
      (step (.loadRepo url (.error e) tr) s).1.default_branch = s.default_branch ∧
      (step (.loadRepo url (.error e) tr) s).1.selected_file_path = s.selected_file_path ∧
      (step (.loadRepo url (.error e) tr) s).1.code_content = s.code_content ∧
      (step (.loadRepo url (.error e) tr) s).1.repo_code_full = s.repo_code_full ∧
      (step (.loadRepo url (.error e) tr) s).1.repo_owner = some owner ∧
      (step (.loadRepo url (.error e) tr) s).1.repo_name = some repo ∧
      (step (.loadRepo url (.error e) tr) s).2 ≠ []) ∧
    (∀ (s : Session) (url owner repo : String) (body : RepoBody) (e : PyError),
      parse_github_url url = some (owner, repo) → owner ≠ "" → repo ≠ "" →
      body.default_branch.getD "main" ≠ "" →
      (step (.loadRepo url (.ok body) (.error e)) s).1.repo_files = s.repo_files ∧
      (step (.loadRepo url (.ok body) (.error e)) s).1.messages = s.messages ∧
      (step (.loadRepo url (.ok body) (.error e)) s).1.selected_file_path =
        s.selected_file_path ∧
      (step (.loadRepo url (.ok body) (.error e)) s).1.code_content = s.code_content ∧
      (step (.loadRepo url (.ok body) (.error e)) s).1.repo_code_full = s.repo_code_full ∧
      (step (.loadRepo url (.ok body) (.error e)) s).1.default_branch =
        some (body.default_branch.getD "main") ∧
      (step (.loadRepo url (.ok body) (.error e)) s).2 ≠ []) := by
  constructor
  · intro s url owner repo e tr hparse ho hr
    have hurl : ¬ (url = "") := by
      intro h
      have hnone : parse_github_url "" = none := by decide
      rw [h, hnone] at hparse
      exact Option.noConfusion hparse
    simp only [step, load_repo_handler, if_neg hurl, hparse]
    rw [if_pos ⟨ho, hr⟩]
    simp [get_repo_default_branch]
  · intro s url owner repo body e hparse ho hr hbr
    have hurl : ¬ (url = "") := by
      intro h
      have hnone : parse_github_url "" = none := by decide
      rw [h, hnone] at hparse
      exact Option.noConfusion hparse
    simp only [step, load_repo_handler, if_neg hurl, hparse]
    rw [if_pos ⟨ho, hr⟩]
    simp [get_repo_default_branch, get_repo_files, hbr]

/-- Claim C7 witness: instantiation of both failure shapes at the initial
session with a concrete URL. -/
theorem c7_amended_load_failure_witness :
    ((step (.loadRepo "https://github.com/o/r" (.error (.requestException "net down"))
        (.ok ⟨some []⟩)) initial_session).1.repo_files = initial_session.repo_files ∧
     (step (.loadRepo "https://github.com/o/r" (.error (.requestException "net down"))
        (.ok ⟨some []⟩)) initial_session).1.messages = initial_session.messages ∧
     (step (.loadRepo "https://github.com/o/r" (.error (.requestException "net down"))
        (.ok ⟨some []⟩)) initial_session).2 ≠ []) ∧
    ((step (.loadRepo "https://github.com/o/r" (.ok ⟨some "dev"⟩)
        (.error (.otherError "bad json"))) initial_session).1.repo_files =
          initial_session.repo_files ∧
     (step (.loadRepo "https://github.com/o/r" (.ok ⟨some "dev"⟩)
        (.error (.otherError "bad json"))) initial_session).1.default_branch = some "dev" ∧
     (step (.loadRepo "https://github.com/o/r" (.ok ⟨some "dev"⟩)
        (.error (.otherError "bad json"))) initial_session).2 ≠ []) := by
  have h1 := c7_amended_load_failure.1 initial_session "https://github.com/o/r" "o" "r"
    (.requestException "net down") (.ok ⟨some []⟩) (by decide) (by decide) (by decide)
  have h2 := c7_amended_load_failure.2 initial_session "https://github.com/o/r" "o" "r"
    ⟨some "dev"⟩ (.otherError "bad json") (by decide) (by decide) (by decide) (by decide)
  exact ⟨⟨h1.1, h1.2.1, h1.2.2.2.2.2.2.2.2⟩, ⟨h2.1, h2.2.2.2.2.2.1, h2.2.2.2.2.2.2⟩⟩

/-- Claim C8, counterexample.  The assistant message is NOT always nonempty:
when the generation stream completes without yielding any part-bearing
chunk, the committed assistant content is the empty string. -/
theorem c8_counterexample :
    (step (.chatTurn true (some "What does this file do?") (.success []))
        ready_session).1.messages =
      [⟨"user", "What does this file do?"⟩, ⟨"assistant", ""⟩] := by
  decide

/-- Claim C8 (amended): a submitted question in a ready chat state with an
empty transcript yields a transcript of exactly two messages, the user
message holding the question followed by the assistant message; the
assistant content is the concatenation of the streamed fragments (or the
error text when generation failed), and it is nonempty whenever generation
failed or some streamed fragment is nonempty - but it is empty when the
stream yields nothing. -/
theorem c8_amended_chat_turn :
    ∀ (s : Session) (key : Bool) (p : String) (gen : GenResult),
      chat_ready key s = true → p ≠ "" → s.messages = [] →
      (step (.chatTurn key (some p) gen) s).1.messages =
        [⟨"user", p⟩, ⟨"assistant", gen_output gen⟩] ∧
      (∀ e, gen = .failure e → gen_output gen ≠ "") ∧
      (∀ chunks c, gen = .success chunks → c ∈ chunks → c ≠ "" → gen_output gen ≠ "") := by
  intro s key p gen hready hp hmsg
  refine ⟨?_, ?_, ?_⟩
  · simp [step, hready, hp, chat_turn_handler, hmsg]
  · intro e hgen
    subst hgen
    exact append_ne_empty_left _ _ (by decide)
  · intro chunks c hgen hc hcne
    subst hgen
    exact str_join_ne_empty chunks c hc hcne

/-- Claim C8 witness: instantiation at a ready session with a failing
generation call, whose assistant entry is provably nonempty. -/
theorem c8_amended_chat_turn_witness :
    (step (.chatTurn true (some "What does this file do?")
        (.failure "invalid credential")) ready_session).1.messages =
      [⟨"user", "What does this file do?"⟩,
       ⟨"assistant", gen_output (.failure "invalid credential")⟩] ∧
    gen_output (GenResult.failure "invalid credential") ≠ "" := by
  have h := c8_amended_chat_turn ready_session true "What does this file do?"
    (.failure "invalid credential") (by decide) (by decide) rfl
  exact ⟨h.1, h.2.1 "invalid credential" rfl⟩

/-- Claim C9: every failure raised during generation-request construction or
streaming is caught (the handler is total on the failure outcome) and the
turn appends an assistant-role message whose content is the human-readable
error text naming the exception, while the same failure is also shown as a
visible error message. -/
theorem c9_generation_failure :
    ∀ (s : Session) (key : Bool) (p e : String),
      chat_ready key s = true → p ≠ "" →
      (step (.chatTurn key (some p) (.failure e)) s).1.messages =
        s.messages ++ [⟨"user", p⟩,
          ⟨"assistant", "Sorry, I encountered an error during generation: " ++ e⟩] ∧
      (step (.chatTurn key (some p) (.failure e)) s).2 =
        ["An error occurred with the Gemini API: " ++ e] ∧
      ("Sorry, I encountered an error during generation: " ++ e) ≠ "" := by
  intro s key p e hready hp
  refine ⟨?_, ?_, append_ne_empty_left _ _ (by decide)⟩
  · simp [step, hready, hp, chat_turn_handler, gen_output]
  · simp [step, hready, hp, chat_turn_handler, gen_errors]

/-- Claim C9 witness: instantiation at a ready session and a concrete quota
failure. -/
theorem c9_generation_failure_witness :
    (step (.chatTurn true (some "q") (.failure "quota exceeded"))
        ready_session).1.messages =
      ready_session.messages ++ [⟨"user", "q"⟩,
        ⟨"assistant", "Sorry, I encountered an error during generation: " ++ "quota exceeded"⟩] ∧
    (step (.chatTurn true (some "q") (.failure "quota exceeded")) ready_session).2 =
      ["An error occurred with the Gemini API: " ++ "quota exceeded"] ∧
    ("Sorry, I encountered an error during generation: " ++ "quota exceeded") ≠ "" :=
  c9_generation_failure ready_session true "q" "quota exceeded" (by decide) (by decide)

/-- Claim C10: a blob fetch that succeeds with an empty body is treated like
a failed fetch, because the Python code tests the content with truthiness
(`if code:`): during bulk assembly the file gets the failure placeholder
block, and during single-file selection the load is reported as failed and
the selection is reset. -/
theorem c10_empty_content :
    (∀ (owner repo branch : String) (fetch : String → Except PyError String) (f : TreeItem),
      fetch (raw_content_url owner repo branch f.path) = .ok "" →
      (render_file_block owner repo branch fetch f).1 = error_block f.path) ∧
    (∀ (s : Session) (fetch : String → Except PyError String) (sel : String),
      s.repo_files.isEmpty = false → sel ≠ placeholder_option →
      s.selected_file_path ≠ some sel →
      fetch (raw_content_url (py_str_opt s.repo_owner) (py_str_opt s.repo_name)
        (py_str_opt s.default_branch) sel) = .ok "" →
      (step (.selectFile fetch sel) s).1.selected_file_path = none ∧
      (step (.selectFile fetch sel) s).1.code_content = none ∧
      (step (.selectFile fetch sel) s).2 = ["Failed to load content for " ++ sel ++ "."]) := by
  constructor
  · intro owner repo branch fetch f hf
    simp [render_file_block, fetch_github_code, hf]
  · intro s fetch sel hne hsel hdiff hf
    have h1 : ¬ (s.repo_files.isEmpty = true) := by simp [hne]
    simp only [step, select_single_file_handler, if_neg h1, if_pos hsel, if_pos hdiff]
    simp [fetch_github_code, hf]

/-- Claim C10 witness: instantiation at an all-empty-body fetch map, for one
bulk-loop iteration and for a single-file selection. -/
theorem c10_empty_content_witness :
    (render_file_block "o" "r" "main" empty_fetch ⟨"a.py", "blob"⟩).1 = error_block "a.py" ∧
    ((step (.selectFile empty_fetch "a.py") repo_session).1.selected_file_path = none ∧
     (step (.selectFile empty_fetch "a.py") repo_session).1.code_content = none ∧
     (step (.selectFile empty_fetch "a.py") repo_session).2 =
       ["Failed to load content for " ++ "a.py" ++ "."]) :=
  ⟨c10_empty_content.1 "o" "r" "main" empty_fetch ⟨"a.py", "blob"⟩ rfl,
   c10_empty_content.2 repo_session empty_fetch "a.py" (by decide) (by decide) (by decide) rfl⟩
